import Mathlib

/-!
# Verification of the concerto queue-and-dispatch engine

Shallow embedding of the queue store (`src/core/queue.ts`), the handoff
module (`src/orchestrator/handoff.types.ts` together with the handoff
helpers exported from `src/orchestrator/handoff`), and the worker command
handlers (the `registerWorkerCommand` module).

Modelling conventions:
* Timestamps are stored in the database as ISO-8601 strings produced by
  `nowIso()`.  Such strings are always non-empty and parseable, and their
  lexicographic (SQLite `TEXT`) order coincides with the numeric order of
  the instants they denote.  We therefore model a stored `created_at` by
  the integer of milliseconds it parses to, and a stored `updated_at` /
  `locked_at` by `Option Int`, where `none` models a string rejected by
  `Date.parse` (such a string is non-empty, so emptiness guards in
  `mapJobRow` still pass on it).
* SQL statements become pure functions on lists of rows; `UPDATE ... WHERE`
  maps over the list, `DELETE ... WHERE` filters it, and row counts
  (`result.changes`) become lengths of the matching sublists.
* `Date.now()` becomes an explicit `now : Int` argument.
-/

namespace Concerto

/-! ## Handoff data model (`src/orchestrator/handoff.types.ts`) -/

/-- Structure `RunRepoInfo` from `handoff.types.ts`. -/
structure RunRepoInfo where
  root : String
  branch : String
  baseBranch : String
deriving Repr, DecidableEq

/-- Structure `RunInfo` from `handoff.types.ts`. -/
structure RunInfo where
  id : String
  createdAt : String
  repo : RunRepoInfo
deriving Repr, DecidableEq

/-- Structure `TaskInfo` from `handoff.types.ts`. -/
structure TaskInfo where
  id : String
  prompt : String
  mode : String
deriving Repr, DecidableEq

/-- Structure `HandoffHistoryItem` from `handoff.types.ts`. -/
structure HandoffHistoryItem where
  phase : String
  status : String
  endedAt : String
  artifact : String
deriving Repr, DecidableEq

/-- Structure `HandoffState` from `handoff.types.ts`. -/
structure HandoffState where
  phase : String
  status : String
  iteration : Int
  maxIterations : Int
  history : List HandoffHistoryItem
deriving Repr, DecidableEq

/-- Structure `HandoffConstraints` from `handoff.types.ts` (all fields optional). -/
structure HandoffConstraints where
  estimatedFilesChangedLimit : Option Int
  noBreakingChanges : Option Bool
  requireTestsForBehaviorChange : Option Bool
deriving Repr, DecidableEq

/-- Structure `HandoffBudgets` from `handoff.types.ts` (all fields optional). -/
structure HandoffBudgets where
  maxTokens : Option Int
  maxToolCalls : Option Int
  timeLimitSeconds : Option Int
deriving Repr, DecidableEq

/-- Structure `HandoffArtifacts` from `handoff.types.ts` (all fields optional).
The same shape also serves as the field-wise override argument of
`updateHandoff`. -/
structure HandoffArtifacts where
  task : Option String
  plan : Option String
  implementation : Option String
  review : Option String
  tests : Option String
  prDraft : Option String
  implementorHandoff : Option String
  handoff : Option String
  handoffImplementor : Option String
  handoffReview : Option String
  handoffTest : Option String
deriving Repr, DecidableEq

/-- The artifacts record with every key absent. -/
def noArtifacts : HandoffArtifacts :=
  ⟨none, none, none, none, none, none, none, none, none, none, none⟩

/-- Structure `HandoffNext` from `handoff.types.ts`. -/
structure HandoffNext where
  agent : String
  inputArtifacts : List String
  instructions : List String
deriving Repr, DecidableEq

/-- Structure `RunHandoff` from `handoff.types.ts`. -/
structure RunHandoff where
  run : RunInfo
  task : TaskInfo
  state : HandoffState
  constraints : Option HandoffConstraints
  budgets : Option HandoffBudgets
  artifacts : HandoffArtifacts
  next : Option HandoffNext
  notes : List String
deriving Repr, DecidableEq

/-! ## Handoff helpers (`appendHistory`, `updateHandoff`) -/

/-- Function `appendHistory` from the handoff module: a fresh handoff with one more
history item; never mutates in place. -/
def appendHistory (handoff : RunHandoff) (entry : HandoffHistoryItem) :
    RunHandoff :=
  { handoff with
    state := { handoff.state with
      history := handoff.state.history ++ [entry] } }

/-- The parameter object of `updateHandoff`. -/
structure UpdateParams where
  handoff : RunHandoff
  phase : String
  status : String
  artifact : String
  endedAt : String
  next : Option HandoffNext
  artifacts : HandoffArtifacts
  note : Option String
deriving Repr

/-- Field-wise override used to model the object spread
`{ ...updated.artifacts, ...params.artifacts }`: a key present in the
patch wins, an absent key keeps the base value. -/
def overrideField (patch base : Option String) : Option String :=
  match patch with
  | some v => some v
  | none => base

/-- The object spread `{ ...updated.artifacts, ...params.artifacts }`. -/
def mergeArtifacts (base patch : HandoffArtifacts) : HandoffArtifacts where
  task := overrideField patch.task base.task
  plan := overrideField patch.plan base.plan
  implementation := overrideField patch.implementation base.implementation
  review := overrideField patch.review base.review
  tests := overrideField patch.tests base.tests
  prDraft := overrideField patch.prDraft base.prDraft
  implementorHandoff :=
    overrideField patch.implementorHandoff base.implementorHandoff
  handoff := overrideField patch.handoff base.handoff
  handoffImplementor :=
    overrideField patch.handoffImplementor base.handoffImplementor
  handoffReview := overrideField patch.handoffReview base.handoffReview
  handoffTest := overrideField patch.handoffTest base.handoffTest

/-- Function `updateHandoff` from the handoff module.  Appends
`{phase, status, endedAt, artifact}` to the history, sets
`state.{phase,status}`, merges the artifact patch, computes
`next: params.next ?? updated.next` and appends the note when the note
string is truthy (non-empty). -/
def updateHandoff (params : UpdateParams) : RunHandoff :=
  let updated := appendHistory params.handoff
    { phase := params.phase
      status := params.status
      endedAt := params.endedAt
      artifact := params.artifact }
  { updated with
    state := { updated.state with
      phase := params.phase
      status := params.status }
    artifacts := mergeArtifacts updated.artifacts params.artifacts
    next := match params.next with
      | some n => some n
      | none => updated.next
    notes := match params.note with
      | some s => if s = "" then updated.notes else updated.notes ++ [s]
      | none => updated.notes }

/-! ## C4 -/

/-- C4: for every handoff and every `updateHandoff` call, the returned
history is the input history with exactly the entry
`{phase, status, endedAt, artifact}` appended at the end (so all prior
entries are unchanged), and the returned `state.phase` and `state.status`
equal the phase and status of that last history entry. -/
theorem updateHandoff_history_append (p : UpdateParams) :
    (updateHandoff p).state.history
        = p.handoff.state.history
            ++ [⟨p.phase, p.status, p.endedAt, p.artifact⟩]
      ∧ (updateHandoff p).state.history.getLast?
          = some ⟨p.phase, p.status, p.endedAt, p.artifact⟩
      ∧ (updateHandoff p).state.phase = p.phase
      ∧ (updateHandoff p).state.status = p.status := by
  refine ⟨rfl, ?_, rfl, rfl⟩
  show (p.handoff.state.history
      ++ [(⟨p.phase, p.status, p.endedAt, p.artifact⟩ : HandoffHistoryItem)]).getLast?
    = some ⟨p.phase, p.status, p.endedAt, p.artifact⟩
  simp

/-! ## Caller documents that clear `next`
(`markRunFailed` and `handlePr` in the worker module, and the cancel
command).  Each calls `updateHandoff` with `next: undefined` and then
overwrites `next` with `undefined` on the object it writes to
`handoff.json`. -/

/-- The document written by `markRunFailed` in the worker module. -/
def markRunFailedDoc (handoff : RunHandoff) (phase : String)
    (endedAt : String) (message : String) : RunHandoff :=
  let updated := updateHandoff
    { handoff := handoff
      phase := phase
      status := "failed"
      artifact := "handoff.json"
      endedAt := endedAt
      next := none
      artifacts := noArtifacts
      note := some message }
  { updated with next := none }

/-- The document written to `handoff.json` by `handlePr` in the worker
module (terminal transition). -/
def handlePrDoc (runHandoff : RunHandoff) (endedAt : String) : RunHandoff :=
  let updated := updateHandoff
    { handoff := runHandoff
      phase := "pr"
      status := "completed"
      artifact := "pr-draft.json"
      endedAt := endedAt
      next := none
      artifacts := { noArtifacts with prDraft := some "pr-draft.json" }
      note := none }
  { updated with next := none }

/-- The document written by the cancel command when the handoff file
exists. -/
def cancelDoc (handoff : RunHandoff) (endedAt : String) : RunHandoff :=
  let updated := updateHandoff
    { handoff := handoff
      phase := handoff.state.phase
      status := "cancelled"
      artifact := "handoff.json"
      endedAt := endedAt
      next := none
      artifacts := noArtifacts
      note := some "Cancelled by user." }
  { updated with next := none }

/-! ## C8 -/

/-- C8: `updateHandoff` never clears `next` on its own: with no `next`
parameter the returned handoff keeps the `next` of the input, and `next` is
replaced exactly when a replacement is provided.  Terminal documents
without a `next` key arise only because `markRunFailed`, `handlePr` and
the cancel command overwrite `next` with `undefined` on the returned
object before writing the file. -/
theorem updateHandoff_next_frame :
    (∀ p : UpdateParams, p.next = none →
      (updateHandoff p).next = p.handoff.next)
    ∧ (∀ p : UpdateParams, ∀ n, p.next = some n →
      (updateHandoff p).next = some n)
    ∧ (∀ h phase endedAt message,
      (markRunFailedDoc h phase endedAt message).next = none)
    ∧ (∀ h endedAt, (handlePrDoc h endedAt).next = none)
    ∧ (∀ h endedAt, (cancelDoc h endedAt).next = none) := by
  refine ⟨?_, ?_, ?_, ?_, ?_⟩
  · intro p hp
    simp [updateHandoff, appendHistory, hp]
  · intro p n hp
    simp [updateHandoff, appendHistory, hp]
  · intro h phase endedAt message
    rfl
  · intro h endedAt
    rfl
  · intro h endedAt
    rfl

/-! Sample values used by witnesses. -/

/-- A concrete repo record for witnesses. -/
def sampleRepo : RunRepoInfo :=
  ⟨"/tmp/ws/run-1", "feat/do-it", "main"⟩

/-- A concrete run record for witnesses. -/
def sampleRun : RunInfo :=
  ⟨"run-1", "2026-01-01T00:00:00.000Z", sampleRepo⟩

/-- A concrete task record for witnesses. -/
def sampleTask : TaskInfo :=
  ⟨"task-1", "add a flag", "auto"⟩

/-- A concrete `next` pointer for witnesses. -/
def sampleNext : HandoffNext :=
  ⟨"reviewer", ["plan.json", "implementor.json"], ["Review the diff."]⟩

/-- A concrete handoff for witnesses. -/
def sampleHandoff : RunHandoff :=
  { run := sampleRun
    task := sampleTask
    state :=
      { phase := "implement"
        status := "completed"
        iteration := 1
        maxIterations := 3
        history :=
          [⟨"plan", "completed", "2026-01-01T00:01:00.000Z", "plan.json"⟩] }
    constraints := none
    budgets := none
    artifacts := { noArtifacts with plan := some "plan.json" }
    next := some sampleNext
    notes := [] }

/-- Witness for C8 at a concrete handoff: an update that carries no `next`
keeps `some sampleNext`, and `markRunFailedDoc` ends with no `next`. -/
theorem updateHandoff_next_frame_witness :
    (updateHandoff
      { handoff := sampleHandoff
        phase := "test"
        status := "completed"
        artifact := "test.json"
        endedAt := "2026-01-01T00:02:00.000Z"
        next := none
        artifacts := noArtifacts
        note := none }).next = some sampleNext
    ∧ (markRunFailedDoc sampleHandoff "test" "2026-01-01T00:02:00.000Z"
        "boom").next = none :=
  ⟨updateHandoff_next_frame.1 _ rfl,
    updateHandoff_next_frame.2.2.1 sampleHandoff "test"
      "2026-01-01T00:02:00.000Z" "boom"⟩

/-! ## Queue store (`src/core/queue.ts`) -/

/-- Constant `LOCK_TIMEOUT_MS` from `queue.ts`. -/
def LOCK_TIMEOUT_MS : Int := 5 * 60 * 1000

/-- Constant `MAX_ATTEMPTS` from `queue.ts`. -/
def MAX_ATTEMPTS : Nat := 3

/-- A row of the `jobs` table.  `id` is the integer primary key,
`created_at` the parse of the stored ISO string (see the module header),
`updated_at` its possibly-unparseable counterpart, `last_error` the
nullable error column. -/
structure JobRow where
  id : Nat
  run_id : String
  phase : String
  status : String
  attempt : Nat
  created_at : Int
  updated_at : Option Int
  last_error : Option String
deriving Repr, DecidableEq

/-- A row of the `run_locks` table. -/
structure LockRow where
  run_id : String
  locked_at : Option Int
  owner : String
deriving Repr, DecidableEq

/-- The guards of `mapJobRow` that can fail on a typed row: `run_id`,
`phase` and `status` must be non-empty.  (The `id`-is-a-number and
timestamp-non-empty guards always hold in the typed model: `id` is typed
and stored timestamps are non-empty strings.) -/
def jobRowWellFormed (r : JobRow) : Prop :=
  r.run_id ≠ "" ∧ r.phase ≠ "" ∧ r.status ≠ ""

instance (r : JobRow) : Decidable (jobRowWellFormed r) := by
  unfold jobRowWellFormed
  infer_instance

/-- The ordering of the claim query: `created_at` ascending, rows with
equal `created_at` by rowid (`id`) ascending — the order in which the
`(status, created_at)` index stores its entries. -/
def claimKeyLe (a b : JobRow) : Prop :=
  a.created_at < b.created_at
    ∨ (a.created_at = b.created_at ∧ a.id ≤ b.id)

instance (a b : JobRow) : Decidable (claimKeyLe a b) := by
  unfold claimKeyLe
  infer_instance

/-- The row picked by the claim query
the claim SELECT (status filter "queued", ORDER BY created_at ASC, LIMIT 1).
The query scans the `(status, created_at)` index, whose entries with equal
keys are ordered by rowid, so the returned row is the queued row minimal
in the lexicographic key `(created_at, id)`; among exact key duplicates
the earliest row wins. -/
def selectQueued : List JobRow → Option JobRow
  | [] => none
  | r :: rest =>
    let best := selectQueued rest
    if r.status = "queued" then
      match best with
      | none => some r
      | some b => if claimKeyLe r b then some r else some b
    else best

/-- Function `claimJob` from `queue.ts`: in one transaction, select the
first queued row in claim order; if it passes `mapJobRow`, set it to
`in_progress` with `attempt + 1` and `updated_at = now` and return the
updated view, else return none without updating. -/
def claimJob (now : Int) (jobs : List JobRow) :
    Option JobRow × List JobRow :=
  match selectQueued jobs with
  | none => (none, jobs)
  | some j =>
    if jobRowWellFormed j then
      (some { j with
          status := "in_progress"
          attempt := j.attempt + 1
          updated_at := some now },
        jobs.map fun r =>
          if r.id = j.id then
            { r with
              status := "in_progress"
              attempt := j.attempt + 1
              updated_at := some now }
          else r)
    else (none, jobs)

/-- Function `requeueJob` from `queue.ts`:
the UPDATE that sets status to "queued" and updated_at to now for the
given id — no condition on the current status. -/
def requeueJob (now : Int) (jobId : Nat) (jobs : List JobRow) :
    List JobRow :=
  jobs.map fun r =>
    if r.id = jobId then
      { r with status := "queued", updated_at := some now }
    else r

/-- The staleness test of `acquireRunLock`:
`Number.isNaN(lockedAtMs) || Date.now() - lockedAtMs > LOCK_TIMEOUT_MS`. -/
def lockIsStale (now : Int) (lockedAt : Option Int) : Bool :=
  match lockedAt with
  | none => true
  | some t => decide (now - t > LOCK_TIMEOUT_MS)

/-- Lookup used by the `WHERE run_id = ?` point queries on `run_locks`
(`run_id` is the primary key, so at most one row matches). -/
def findLock (locks : List LockRow) (runId : String) : Option LockRow :=
  locks.find? fun l => l.run_id == runId

/-- Function `acquireRunLock` from `queue.ts`: insert-and-return-true when
no row exists; steal (update `owner` and `locked_at = now`) and return
true when the existing row is stale; otherwise return false and change
nothing. -/
def acquireRunLock (now : Int) (runId owner : String)
    (locks : List LockRow) : Bool × List LockRow :=
  match findLock locks runId with
  | none => (true, locks ++ [⟨runId, some now, owner⟩])
  | some existing =>
    if lockIsStale now existing.locked_at then
      (true, locks.map fun l =>
        if l.run_id = runId then
          { l with locked_at := some now, owner := owner }
        else l)
    else (false, locks)

/-- The combined state of the two queue tables. -/
structure QueueState where
  jobs : List JobRow
  locks : List LockRow
deriving Repr, DecidableEq

/-- Result record of `recoverStaleQueueState`. -/
structure QueueRecoveryResult where
  requeuedJobs : Nat
  releasedLocks : Nat
deriving Repr, DecidableEq

/-- The scan predicate of `recoverStaleQueueState` over `in_progress`
rows: the loop skips rows with empty `run_id`, and flags a row stale when
its `updated_at` fails to parse or parses to at most the cutoff. -/
def jobIsStaleInProgress (cutoff : Int) (r : JobRow) : Bool :=
  r.status == "in_progress" && !(r.run_id == "") &&
    (match r.updated_at with
      | none => true
      | some t => decide (t ≤ cutoff))

/-- The lock-scan predicate of `recoverStaleQueueState`: rows with empty
`run_id` are skipped, the rest are stale when `locked_at` fails to parse
or parses to at most the cutoff. -/
def lockRowIsStale (cutoff : Int) (l : LockRow) : Bool :=
  !(l.run_id == "") &&
    (match l.locked_at with
      | none => true
      | some t => decide (t ≤ cutoff))

/-- The `staleJobIds` array collected by the `in_progress` scan of
`recoverStaleQueueState`. -/
def staleJobIdsOf (cutoff : Int) (jobs : List JobRow) : List Nat :=
  (jobs.filter (jobIsStaleInProgress cutoff)).map JobRow.id

/-- The `staleRunIdsFromJobs` array collected by the same scan. -/
def staleRunIdsOf (cutoff : Int) (jobs : List JobRow) : List String :=
  (jobs.filter (jobIsStaleInProgress cutoff)).map JobRow.run_id

/-- Whether the requeue statement
the requeue UPDATE (matching on the id and on status "in_progress",
run for each collected id) touches a given row. -/
def jobTouched (cutoff : Int) (jobs : List JobRow) (r : JobRow) : Bool :=
  r.status == "in_progress" && (staleJobIdsOf cutoff jobs).contains r.id

/-- The effect of that requeue statement on a touched row, with
last_error defaulting via COALESCE to the recovery message. -/
def recoverJob (now : Int) (r : JobRow) : JobRow :=
  { r with
    status := "queued"
    updated_at := some now
    last_error :=
      some (r.last_error.getD "Recovered stale in_progress job.") }

/-- Whether `recoverStaleQueueState` deletes the locks of a given run id:
the run id was collected from a recovered job, or some lock row with this
run id is itself stale. -/
def lockDoomed (cutoff : Int) (jobs : List JobRow) (locks : List LockRow)
    (runId : String) : Bool :=
  (staleRunIdsOf cutoff jobs).contains runId
    || locks.any fun l => l.run_id == runId && lockRowIsStale cutoff l

/-- Function `recoverStaleQueueState` from `queue.ts`.  With
`cutoff = now − LOCK_TIMEOUT_MS`: requeue every `in_progress` row whose id
was collected by the stale scan, counting changed rows; then delete every
lock whose `run_id` either belongs to a recovered job or carries a stale
lock row, counting deletions. -/
def recoverStale (now : Int) (st : QueueState) :
    QueueRecoveryResult × QueueState :=
  let cutoff := now - LOCK_TIMEOUT_MS
  (⟨(st.jobs.filter (jobTouched cutoff st.jobs)).length,
      (st.locks.filter fun l =>
        lockDoomed cutoff st.jobs st.locks l.run_id).length⟩,
    ⟨st.jobs.map fun r =>
        if jobTouched cutoff st.jobs r then recoverJob now r else r,
      st.locks.filter fun l =>
        !(lockDoomed cutoff st.jobs st.locks l.run_id)⟩)

/-! ## C9 -/

/-- C9: `requeueJob` is status-oblivious.  Every row with the requested id
is set to status `queued` with `updated_at = now` and all its other
columns kept; rows with other ids are untouched.  No hypothesis restricts
the prior status, so a terminal (`done`, `failed` or `cancelled`) job is
moved back to `queued` as well. -/
theorem requeueJob_status_oblivious (now : Int) (jobId : Nat)
    (jobs : List JobRow) :
    (∀ r ∈ jobs, r.id = jobId →
      ({ r with status := "queued", updated_at := some now } : JobRow)
        ∈ requeueJob now jobId jobs)
    ∧ (∀ r ∈ jobs, r.id ≠ jobId → r ∈ requeueJob now jobId jobs)
    ∧ (∀ r ∈ requeueJob now jobId jobs, r.id = jobId →
      r.status = "queued" ∧ r.updated_at = some now) := by
  refine ⟨?_, ?_, ?_⟩
  · intro r hr hid
    have := List.mem_map_of_mem
      (fun r : JobRow =>
        if r.id = jobId then
          { r with status := "queued", updated_at := some now }
        else r) hr
    simpa [requeueJob, hid] using this
  · intro r hr hid
    have := List.mem_map_of_mem
      (fun r : JobRow =>
        if r.id = jobId then
          { r with status := "queued", updated_at := some now }
        else r) hr
    simpa [requeueJob, hid] using this
  · intro r hr hid
    rcases List.mem_map.mp hr with ⟨r₀, hr₀, hmap⟩
    by_cases h : r₀.id = jobId
    · simp only [h, if_pos] at hmap
      rw [← hmap]
      exact ⟨rfl, rfl⟩
    · simp only [h, if_neg, if_false] at hmap
      rw [← hmap] at hid
      exact absurd hid h

/-- Witness for C9: a job whose status is the terminal `failed` is moved
back to `queued`. -/
theorem requeueJob_status_oblivious_witness :
    ({ id := 7, run_id := "run-1", phase := "test", status := "queued"
       attempt := 2, created_at := 10, updated_at := some 500
       last_error := some "boom" } : JobRow)
      ∈ requeueJob 500 7
        [{ id := 7, run_id := "run-1", phase := "test", status := "failed"
           attempt := 2, created_at := 10, updated_at := some 20
           last_error := some "boom" }] :=
  (requeueJob_status_oblivious 500 7
      [{ id := 7, run_id := "run-1", phase := "test", status := "failed"
         attempt := 2, created_at := 10, updated_at := some 20
         last_error := some "boom" }]).1
    { id := 7, run_id := "run-1", phase := "test", status := "failed"
      attempt := 2, created_at := 10, updated_at := some 20
      last_error := some "boom" } (by decide) rfl

/-! ## C6 -/

/-- Helper: a point query on the `run_locks` primary key finds the unique
row carrying that key. -/
theorem findLock_eq_of_unique (locks : List LockRow) (runId : String)
    (l : LockRow) (hl : l ∈ locks) (hid : l.run_id = runId)
    (huniq : ∀ l' ∈ locks, l'.run_id = runId → l' = l) :
    findLock locks runId = some l := by
  induction locks with
  | nil => cases hl
  | cons a rest ih =>
    by_cases ha : a.run_id = runId
    · have h1 : a = l := huniq a (List.mem_cons_self a rest) ha
      subst h1
      simp only [findLock]
      exact List.find?_cons_of_pos _ (by simpa using ha)
    · have hl' : l ∈ rest := by
        rcases List.mem_cons.mp hl with h | h
        · exact absurd (h ▸ hid) ha
        · exact h
      have hres := ih hl' fun l' hmem hid' =>
        huniq l' (List.mem_cons_of_mem a hmem) hid'
      simp only [findLock] at hres ⊢
      rw [List.find?_cons_of_neg _ (by simpa using ha)]
      exact hres

/-- C6: `acquireRunLock` inserts and returns true when no row exists for
the run; when the unique existing row is stale (its `locked_at` fails to
parse, or is more than `LOCK_TIMEOUT_MS` in the past) it steals the lock
by setting `owner` and `locked_at = now` and returns true; otherwise it
returns false and leaves the lock table unchanged. -/
theorem acquireRunLock_spec (now : Int) (runId owner : String)
    (locks : List LockRow) :
    ((∀ l ∈ locks, l.run_id ≠ runId) →
      acquireRunLock now runId owner locks
        = (true, locks ++ [⟨runId, some now, owner⟩]))
    ∧ (∀ l ∈ locks, l.run_id = runId →
      (∀ l' ∈ locks, l'.run_id = runId → l' = l) →
      ((l.locked_at = none
          ∨ ∃ t, l.locked_at = some t ∧ now - t > LOCK_TIMEOUT_MS) →
        acquireRunLock now runId owner locks
          = (true, locks.map fun l' =>
              if l'.run_id = runId then
                { l' with locked_at := some now, owner := owner }
              else l'))
      ∧ (∀ t, l.locked_at = some t → now - t ≤ LOCK_TIMEOUT_MS →
        acquireRunLock now runId owner locks = (false, locks))) := by
  constructor
  · intro hnone
    have hfind : findLock locks runId = none := by
      apply List.find?_eq_none.mpr
      intro l hl
      simpa using hnone l hl
    simp [acquireRunLock, hfind]
  · intro l hl hid huniq
    have hfind : findLock locks runId = some l :=
      findLock_eq_of_unique locks runId l hl hid huniq
    constructor
    · intro hstale
      have hb : lockIsStale now l.locked_at = true := by
        rcases hstale with h | ⟨t, ht, hgt⟩
        · simp [lockIsStale, h]
        · simp [lockIsStale, ht, hgt]
      simp [acquireRunLock, hfind, hb]
    · intro t ht hle
      have hb : lockIsStale now l.locked_at = false := by
        simp [lockIsStale, ht]
        omega
      simp [acquireRunLock, hfind, hb]

/-- Witness for C6 on concrete states: inserting into an empty table,
stealing a stale lock, and being denied by a fresh one.  The lease
timeout is 300000 ms. -/
theorem acquireRunLock_spec_witness :
    acquireRunLock 1000000 "run-1" "worker-b" []
        = (true, [⟨"run-1", some 1000000, "worker-b"⟩])
      ∧ acquireRunLock 1000000 "run-1" "worker-b"
          [⟨"run-1", some 100, "worker-a"⟩]
        = (true, [⟨"run-1", some 1000000, "worker-b"⟩])
      ∧ acquireRunLock 1000000 "run-1" "worker-b"
          [⟨"run-1", some 900000, "worker-a"⟩]
        = (false, [⟨"run-1", some 900000, "worker-a"⟩]) := by
  refine ⟨?_, ?_, ?_⟩
  · exact (acquireRunLock_spec 1000000 "run-1" "worker-b" []).1
      (by intro l hl; cases hl)
  · exact ((acquireRunLock_spec 1000000 "run-1" "worker-b"
      [⟨"run-1", some 100, "worker-a"⟩]).2
      ⟨"run-1", some 100, "worker-a"⟩ (by decide) rfl
      (by intro l' hl' h; simpa using List.mem_singleton.mp hl')).1
      (Or.inr ⟨100, rfl, by norm_num [LOCK_TIMEOUT_MS]⟩)
  · exact ((acquireRunLock_spec 1000000 "run-1" "worker-b"
      [⟨"run-1", some 900000, "worker-a"⟩]).2
      ⟨"run-1", some 900000, "worker-a"⟩ (by decide) rfl
      (by intro l' hl' h; simpa using List.mem_singleton.mp hl')).2
      900000 rfl (by norm_num [LOCK_TIMEOUT_MS])

/-! ## C3 -/

/-- Reflexivity of the claim ordering. -/
theorem claimKeyLe_refl (a : JobRow) : claimKeyLe a a := by
  unfold claimKeyLe
  omega

/-- Totality of the claim ordering. -/
theorem claimKeyLe_total (a b : JobRow) : claimKeyLe a b ∨ claimKeyLe b a := by
  unfold claimKeyLe
  omega

/-- Transitivity of the claim ordering. -/
theorem claimKeyLe_trans {a b c : JobRow} (h1 : claimKeyLe a b)
    (h2 : claimKeyLe b c) : claimKeyLe a c := by
  unfold claimKeyLe at h1 h2 ⊢
  omega

/-- Correctness of the selection: either no row is queued and nothing is
selected, or the selected row is a queued row minimal in the claim
ordering among all queued rows. -/
theorem selectQueued_spec (jobs : List JobRow) :
    (selectQueued jobs = none ∧ ∀ r ∈ jobs, r.status ≠ "queued")
    ∨ (∃ j, selectQueued jobs = some j ∧ j ∈ jobs ∧ j.status = "queued"
        ∧ ∀ r ∈ jobs, r.status = "queued" → claimKeyLe j r) := by
  induction jobs with
  | nil => exact Or.inl ⟨rfl, by simp⟩
  | cons a rest ih =>
    by_cases ha : a.status = "queued"
    · rcases ih with ⟨hnone, hall⟩ | ⟨b, hb, hbmem, hbq, hbmin⟩
      · refine Or.inr ⟨a, ?_, List.mem_cons_self a rest, ha, ?_⟩
        · simp [selectQueued, ha, hnone]
        · intro r hr hq
          rcases List.mem_cons.mp hr with h1 | h1
          · rw [h1]; exact claimKeyLe_refl a
          · exact absurd hq (hall r h1)
      · by_cases hab : claimKeyLe a b
        · refine Or.inr ⟨a, ?_, List.mem_cons_self a rest, ha, ?_⟩
          · simp [selectQueued, ha, hb, hab]
          · intro r hr hq
            rcases List.mem_cons.mp hr with h1 | h1
            · rw [h1]; exact claimKeyLe_refl a
            · exact claimKeyLe_trans hab (hbmin r h1 hq)
        · refine Or.inr
            ⟨b, ?_, List.mem_cons_of_mem a hbmem, hbq, ?_⟩
          · simp [selectQueued, ha, hb, hab]
          · intro r hr hq
            rcases List.mem_cons.mp hr with h1 | h1
            · rw [h1]
              rcases claimKeyLe_total a b with h | h
              · exact absurd h hab
              · exact h
            · exact hbmin r h1 hq
    · rcases ih with ⟨hnone, hall⟩ | ⟨b, hb, hbmem, hbq, hbmin⟩
      · refine Or.inl ⟨by simp [selectQueued, ha, hnone], ?_⟩
        intro r hr
        rcases List.mem_cons.mp hr with h1 | h1
        · subst h1; exact ha
        · exact hall r h1
      · refine Or.inr
          ⟨b, by simp [selectQueued, ha, hb],
            List.mem_cons_of_mem a hbmem, hbq, ?_⟩
        intro r hr hq
        rcases List.mem_cons.mp hr with h1 | h1
        · subst h1; exact absurd hq ha
        · exact hbmin r h1 hq

/-- C3: when no job is queued, `claimJob` returns none and changes
nothing; when a queued job exists, it returns the queued job with
smallest `created_at`, ties among equal `created_at` broken by smallest
id, after setting it to `in_progress` with `attempt + 1` and
`updated_at = now`, both in the returned view and in the table. -/
theorem claimJob_spec (now : Int) (jobs : List JobRow)
    (hwf : ∀ r ∈ jobs, jobRowWellFormed r) :
    ((∀ r ∈ jobs, r.status ≠ "queued") → claimJob now jobs = (none, jobs))
    ∧ (∀ q ∈ jobs, q.status = "queued" →
      ∃ j ∈ jobs, j.status = "queued"
        ∧ (∀ r ∈ jobs, r.status = "queued" →
            j.created_at < r.created_at
              ∨ (j.created_at = r.created_at ∧ j.id ≤ r.id))
        ∧ claimJob now jobs
          = (some { j with
                status := "in_progress"
                attempt := j.attempt + 1
                updated_at := some now },
            jobs.map fun r =>
              if r.id = j.id then
                { r with
                  status := "in_progress"
                  attempt := j.attempt + 1
                  updated_at := some now }
              else r)) := by
  constructor
  · intro h
    rcases selectQueued_spec jobs with ⟨hnone, _⟩ | ⟨b, _, hbmem, hbq, _⟩
    · simp [claimJob, hnone]
    · exact absurd hbq (h b hbmem)
  · intro q hq hqs
    rcases selectQueued_spec jobs with ⟨_, hall⟩ | ⟨j, hj, hjmem, hjq, hjmin⟩
    · exact absurd hqs (hall q hq)
    · refine ⟨j, hjmem, hjq, fun r hr hrq => hjmin r hr hrq, ?_⟩
      have hwfj : jobRowWellFormed j := hwf j hjmem
      simp [claimJob, hj, hwfj]

/-- Concrete queue for the C3 witness: two queued rows share
`created_at = 100` with ids 5 and 2, and one row is `in_progress`. -/
def wJobs : List JobRow :=
  [⟨5, "run-a", "plan", "queued", 0, 100, some 100, none⟩,
   ⟨2, "run-b", "plan", "queued", 1, 100, some 90, none⟩,
   ⟨1, "run-c", "test", "in_progress", 1, 50, some 60, none⟩]

/-- Witness for C3 on `wJobs`: the claimed job is the queued row with the
tie on `created_at` broken towards the smaller id. -/
theorem claimJob_spec_witness :
    ∃ j ∈ wJobs, j.status = "queued"
      ∧ (∀ r ∈ wJobs, r.status = "queued" →
          j.created_at < r.created_at
            ∨ (j.created_at = r.created_at ∧ j.id ≤ r.id))
      ∧ claimJob 200 wJobs
        = (some { j with
              status := "in_progress"
              attempt := j.attempt + 1
              updated_at := some 200 },
          wJobs.map fun r =>
            if r.id = j.id then
              { r with
                status := "in_progress"
                attempt := j.attempt + 1
                updated_at := some 200 }
            else r) :=
  (claimJob_spec 200 wJobs (by decide)).2
    ⟨2, "run-b", "plan", "queued", 1, 100, some 90, none⟩ (by decide) rfl

/-! ## C7 -/

/-- On a state with no stale `in_progress` job, the recovery update
touches no row. -/
theorem jobTouched_eq_false {cutoff : Int} {jobs : List JobRow}
    (h : ∀ r ∈ jobs, jobIsStaleInProgress cutoff r = false) (r : JobRow) :
    jobTouched cutoff jobs r = false := by
  have hids : staleJobIdsOf cutoff jobs = [] := by
    unfold staleJobIdsOf
    rw [List.filter_eq_nil_iff.mpr fun a ha => by simp [h a ha]]
    rfl
  simp [jobTouched, hids]

/-- On such a state the collected run ids are empty as well. -/
theorem staleRunIdsOf_nil {cutoff : Int} {jobs : List JobRow}
    (h : ∀ r ∈ jobs, jobIsStaleInProgress cutoff r = false) :
    staleRunIdsOf cutoff jobs = [] := by
  unfold staleRunIdsOf
  rw [List.filter_eq_nil_iff.mpr fun a ha => by simp [h a ha]]
  rfl

/-- With no stale job and no stale lock, no run id is doomed. -/
theorem lockDoomed_eq_false {cutoff : Int} {jobs : List JobRow}
    {locks : List LockRow}
    (hj : ∀ r ∈ jobs, jobIsStaleInProgress cutoff r = false)
    (hl : ∀ l ∈ locks, lockRowIsStale cutoff l = false) (runId : String) :
    lockDoomed cutoff jobs locks runId = false := by
  have h1 : (staleRunIdsOf cutoff jobs).contains runId = false := by
    rw [staleRunIdsOf_nil hj]
    rfl
  have h2 : (locks.any fun l =>
      l.run_id == runId && lockRowIsStale cutoff l) = false := by
    apply List.any_eq_false.mpr
    intro x hx
    simp [hl x hx]
  unfold lockDoomed
  rw [h1, h2]
  rfl

/-- After one recovery pass, no job row of the resulting state is a stale
`in_progress` row (at the same clock reading). -/
theorem recoverStale_no_stale_jobs (now : Int) (st : QueueState) :
    ∀ r ∈ ((recoverStale now st).2).jobs,
      jobIsStaleInProgress (now - LOCK_TIMEOUT_MS) r = false := by
  intro r hr
  simp only [recoverStale] at hr
  rcases List.mem_map.mp hr with ⟨r₀, hr₀, hmap⟩
  by_cases ht : jobTouched (now - LOCK_TIMEOUT_MS) st.jobs r₀ = true
  · rw [if_pos ht] at hmap
    rw [← hmap]
    simp [jobIsStaleInProgress, recoverJob]
  · rw [if_neg ht] at hmap
    rw [← hmap]
    by_cases hs : jobIsStaleInProgress (now - LOCK_TIMEOUT_MS) r₀ = true
    · exfalso
      apply ht
      have hmemid : r₀.id ∈ staleJobIdsOf (now - LOCK_TIMEOUT_MS) st.jobs := by
        unfold staleJobIdsOf
        exact List.mem_map_of_mem JobRow.id (List.mem_filter.mpr ⟨hr₀, hs⟩)
      have hstat : (r₀.status == "in_progress") = true := by
        unfold jobIsStaleInProgress at hs
        exact (Bool.and_eq_true _ _).mp
          ((Bool.and_eq_true _ _).mp hs).1 |>.1
      simp [jobTouched, hstat, List.contains, hmemid]
    · exact Bool.not_eq_true _ ▸ hs

/-- After one recovery pass, no lock row of the resulting state is stale
(at the same clock reading). -/
theorem recoverStale_no_stale_locks (now : Int) (st : QueueState) :
    ∀ l ∈ ((recoverStale now st).2).locks,
      lockRowIsStale (now - LOCK_TIMEOUT_MS) l = false := by
  intro l hl
  simp only [recoverStale] at hl
  rcases List.mem_filter.mp hl with ⟨hmem, hneg⟩
  by_cases hs : lockRowIsStale (now - LOCK_TIMEOUT_MS) l = true
  · exfalso
    have hd : lockDoomed (now - LOCK_TIMEOUT_MS) st.jobs st.locks
        l.run_id = true := by
      have hany : (st.locks.any fun l' =>
          l'.run_id == l.run_id && lockRowIsStale (now - LOCK_TIMEOUT_MS) l')
          = true :=
        List.any_eq_true.mpr ⟨l, hmem, by simp [hs]⟩
      unfold lockDoomed
      rw [hany, Bool.or_true]
    simp [hd] at hneg
  · exact Bool.not_eq_true _ ▸ hs

/-- C7: recovery is idempotent.  On a state with no stale `in_progress`
job and no stale lock, `recoverStaleQueueState` changes nothing and
reports `{requeuedJobs: 0, releasedLocks: 0}`; and on any state, a second
run immediately after the first (modelled at the same clock reading: no
interleaved activity) reports `{0, 0}`. -/
theorem recoverStale_idempotent (now : Int) (st : QueueState) :
    ((∀ r ∈ st.jobs, jobIsStaleInProgress (now - LOCK_TIMEOUT_MS) r = false) →
     (∀ l ∈ st.locks, lockRowIsStale (now - LOCK_TIMEOUT_MS) l = false) →
      recoverStale now st = (⟨0, 0⟩, st))
    ∧ (recoverStale now ((recoverStale now st).2)).1 = ⟨0, 0⟩ := by
  constructor
  · intro hj hl
    have e1 : st.jobs.filter (jobTouched (now - LOCK_TIMEOUT_MS) st.jobs)
        = [] :=
      List.filter_eq_nil_iff.mpr fun a _ => by
        simp [jobTouched_eq_false hj a]
    have e2 : (st.jobs.map fun r =>
        if jobTouched (now - LOCK_TIMEOUT_MS) st.jobs r then
          recoverJob now r
        else r) = st.jobs := by
      rw [List.map_congr_left
        (g := id) fun a _ => by simp [jobTouched_eq_false hj a]]
      exact List.map_id st.jobs
    have e3 : (st.locks.filter fun l =>
        lockDoomed (now - LOCK_TIMEOUT_MS) st.jobs st.locks l.run_id)
        = [] :=
      List.filter_eq_nil_iff.mpr fun a _ => by
        simp [lockDoomed_eq_false hj hl a.run_id]
    have e4 : (st.locks.filter fun l =>
        !(lockDoomed (now - LOCK_TIMEOUT_MS) st.jobs st.locks l.run_id))
        = st.locks :=
      List.filter_eq_self.mpr fun a _ => by
        simp [lockDoomed_eq_false hj hl a.run_id]
    simp only [recoverStale]
    rw [e1, e2, e3, e4]
    rfl
  · have hj := recoverStale_no_stale_jobs now st
    have hl := recoverStale_no_stale_locks now st
    have e1 : ((recoverStale now st).2).jobs.filter
        (jobTouched (now - LOCK_TIMEOUT_MS) ((recoverStale now st).2).jobs)
        = [] :=
      List.filter_eq_nil_iff.mpr fun a _ => by
        simp [jobTouched_eq_false hj a]
    have e3 : (((recoverStale now st).2).locks.filter fun l =>
        lockDoomed (now - LOCK_TIMEOUT_MS) ((recoverStale now st).2).jobs
          ((recoverStale now st).2).locks l.run_id)
        = [] :=
      List.filter_eq_nil_iff.mpr fun a _ => by
        simp [lockDoomed_eq_false hj hl a.run_id]
    conv_lhs => rw [recoverStale]
    rw [e1, e3]
    rfl

/-- Witness for C7: the clean-state part applied to a state with one
fresh `in_progress` job and one fresh lock at `now = 1000`, and the
second-run part applied to a state with one stale job. -/
theorem recoverStale_idempotent_witness :
    recoverStale 1000
        ⟨[⟨1, "run-1", "plan", "in_progress", 1, 0, some 900, none⟩],
          [⟨"run-1", some 900, "w1"⟩]⟩
      = (⟨0, 0⟩,
        ⟨[⟨1, "run-1", "plan", "in_progress", 1, 0, some 900, none⟩],
          [⟨"run-1", some 900, "w1"⟩]⟩)
    ∧ (recoverStale 1000000
        ((recoverStale 1000000
          ⟨[⟨1, "run-1", "plan", "in_progress", 1, 0, some 10, none⟩],
            [⟨"run-1", some 10, "w1"⟩]⟩).2)).1 = ⟨0, 0⟩ :=
  ⟨(recoverStale_idempotent 1000
      ⟨[⟨1, "run-1", "plan", "in_progress", 1, 0, some 900, none⟩],
        [⟨"run-1", some 900, "w1"⟩]⟩).1 (by decide) (by decide),
    (recoverStale_idempotent 1000000
      ⟨[⟨1, "run-1", "plan", "in_progress", 1, 0, some 10, none⟩],
        [⟨"run-1", some 10, "w1"⟩]⟩).2⟩

/-! ## C5 -/

/-- Function `isJobOverMaxAttempts` from `queue.ts`:
`job.attempt > MAX_ATTEMPTS`. -/
def isJobOverMaxAttempts (job : JobRow) : Bool :=
  decide (job.attempt > MAX_ATTEMPTS)

/-- Outcome of the post-claim gate of the worker. -/
inductive GateOutcome where
  | failedMaxAttempts
  | dispatched
deriving Repr, DecidableEq

/-- The gate the worker applies right after `claimJob`: when
`isJobOverMaxAttempts(job)` it calls
`markJobFailed(job.id, "Max attempts exceeded.")` and continues the loop
without invoking the phase executor; only otherwise does the iteration
proceed to the lease and `processJob`. -/
def workerGate (job : JobRow) : GateOutcome :=
  if isJobOverMaxAttempts job then .failedMaxAttempts else .dispatched

/-- One claim of the queue followed by a requeue of the claimed job: the
table evolution of a worker iteration whose job is later requeued (the
path on which the same job can be claimed again; neither `requeueJob` nor
`recoverStaleQueueState` resets `attempt`). -/
def cycleState (now : Int) (jobs : List JobRow) : List JobRow :=
  match claimJob now jobs with
  | (none, tbl) => tbl
  | (some c, tbl) => requeueJob now c.id tbl

/-- Whether the claim of this iteration passes the gate and reaches the
phase executor. -/
def cycleInvoked (now : Int) (jobs : List JobRow) : Bool :=
  match (claimJob now jobs).1 with
  | none => false
  | some c => workerGate c == GateOutcome.dispatched

/-- Number of phase-executor invocations in `n` successive worker
iterations starting from a given table. -/
def invocationsIn (now : Int) (jobs : List JobRow) : Nat → Nat
  | 0 => 0
  | n + 1 =>
    (if cycleInvoked now jobs then 1 else 0)
      + invocationsIn now (cycleState now jobs) n

/-- Claiming a one-row queue whose row is queued and well-formed. -/
theorem claimJob_singleton (now : Int) (j : JobRow)
    (hq : j.status = "queued") (hwf : jobRowWellFormed j) :
    claimJob now [j]
      = (some { j with
            status := "in_progress"
            attempt := j.attempt + 1
            updated_at := some now },
        [{ j with
            status := "in_progress"
            attempt := j.attempt + 1
            updated_at := some now }]) := by
  have hsel : selectQueued [j] = some j := by
    simp [selectQueued, hq]
  simp [claimJob, hsel, hwf]

/-- One claim-and-requeue cycle on a one-row queue: the row returns to
`queued` with its attempt incremented, and the executor is reached
exactly when the incremented attempt is within `MAX_ATTEMPTS`. -/
theorem cycleState_singleton (now : Int) (j : JobRow)
    (hq : j.status = "queued") (hwf : jobRowWellFormed j) :
    cycleState now [j]
        = [{ j with
            status := "queued"
            attempt := j.attempt + 1
            updated_at := some now }]
      ∧ cycleInvoked now [j] = decide (j.attempt + 1 ≤ MAX_ATTEMPTS) := by
  constructor
  · simp only [cycleState, claimJob_singleton now j hq hwf]
    simp [requeueJob]
  · simp only [cycleInvoked, claimJob_singleton now j hq hwf]
    by_cases h : j.attempt + 1 ≤ MAX_ATTEMPTS
    · have hb : isJobOverMaxAttempts
          { j with
            status := "in_progress"
            attempt := j.attempt + 1
            updated_at := some now } = false := by
        simp only [isJobOverMaxAttempts, decide_eq_false_iff_not]
        omega
      simp [workerGate, hb, h]
    · have hb : isJobOverMaxAttempts
          { j with
            status := "in_progress"
            attempt := j.attempt + 1
            updated_at := some now } = true := by
        simp only [isJobOverMaxAttempts, decide_eq_true_eq]
        omega
      simp [workerGate, hb, h]

/-- Executor invocations on a one-row queue over `n` cycles: exactly
`min n (MAX_ATTEMPTS − attempt)` of them reach the executor. -/
theorem invocations_single (now : Int) :
    ∀ (n : Nat) (j : JobRow), j.status = "queued" → jobRowWellFormed j →
      invocationsIn now [j] n = min n (MAX_ATTEMPTS - j.attempt) := by
  intro n
  induction n with
  | zero =>
    intro j _ _
    simp [invocationsIn]
  | succ n ih =>
    intro j hq hwf
    obtain ⟨hstate, hinv⟩ := cycleState_singleton now j hq hwf
    have hwf' : jobRowWellFormed
        { j with
          status := "queued"
          attempt := j.attempt + 1
          updated_at := some now } := by
      rcases hwf with ⟨h1, h2, _⟩
      refine ⟨h1, h2, ?_⟩
      intro hcon
      exact absurd hcon (by simp)
    have hrec := ih
      { j with
        status := "queued"
        attempt := j.attempt + 1
        updated_at := some now } rfl hwf'
    simp only [invocationsIn, hstate, hinv, hrec]
    by_cases h : j.attempt + 1 ≤ MAX_ATTEMPTS
    · simp only [MAX_ATTEMPTS] at *
      simp [h]
      omega
    · simp only [MAX_ATTEMPTS] at *
      simp [h]
      omega

/-- C5: a claimed job whose (pre-incremented) attempt exceeds 3 is marked
failed with "Max attempts exceeded." without invoking the phase executor;
consequently a job starting at `attempt = 0` has its executor invoked at
most 3 times across all claims, and the 4th claim (making `attempt = 4`)
fails the job at the gate. -/
theorem worker_attempt_bound (now : Int) (j : JobRow)
    (hq : j.status = "queued") (hwf : jobRowWellFormed j)
    (h0 : j.attempt = 0) :
    (∀ c : JobRow,
      workerGate c = GateOutcome.failedMaxAttempts ↔ c.attempt > MAX_ATTEMPTS)
    ∧ (∀ n, invocationsIn now [j] n = min n MAX_ATTEMPTS)
    ∧ (∃ c, (claimJob now
          (cycleState now (cycleState now (cycleState now [j])))).1 = some c
        ∧ c.attempt = 4
        ∧ workerGate c = GateOutcome.failedMaxAttempts) := by
  refine ⟨?_, ?_, ?_⟩
  · intro c
    by_cases h : c.attempt > MAX_ATTEMPTS
    · simp [workerGate, isJobOverMaxAttempts, h]
    · simp [workerGate, isJobOverMaxAttempts, h]
  · intro n
    have := invocations_single now n j hq hwf
    rw [this, h0, Nat.sub_zero]
  · have h1 := (cycleState_singleton now j hq hwf).1
    have hwf1 : jobRowWellFormed
        { j with
          status := "queued"
          attempt := j.attempt + 1
          updated_at := some now } := by
      rcases hwf with ⟨ha, hb, _⟩
      exact ⟨ha, hb, by intro hcon; exact absurd hcon (by simp)⟩
    have h2 : cycleState now
        [{ j with
            status := "queued"
            attempt := j.attempt + 1
            updated_at := some now }]
        = [{ j with
            status := "queued"
            attempt := j.attempt + 1 + 1
            updated_at := some now }] :=
      (cycleState_singleton now _ rfl hwf1).1
    have hwf2 : jobRowWellFormed
        { j with
          status := "queued"
          attempt := j.attempt + 1 + 1
          updated_at := some now } := by
      rcases hwf with ⟨ha, hb, _⟩
      exact ⟨ha, hb, by intro hcon; exact absurd hcon (by simp)⟩
    have h3 : cycleState now
        [{ j with
            status := "queued"
            attempt := j.attempt + 1 + 1
            updated_at := some now }]
        = [{ j with
            status := "queued"
            attempt := j.attempt + 1 + 1 + 1
            updated_at := some now }] :=
      (cycleState_singleton now _ rfl hwf2).1
    have hwf3 : jobRowWellFormed
        { j with
          status := "queued"
          attempt := j.attempt + 1 + 1 + 1
          updated_at := some now } := by
      rcases hwf with ⟨ha, hb, _⟩
      exact ⟨ha, hb, by intro hcon; exact absurd hcon (by simp)⟩
    have h4 : claimJob now
        [{ j with
            status := "queued"
            attempt := j.attempt + 1 + 1 + 1
            updated_at := some now }]
        = (some { j with
              status := "in_progress"
              attempt := j.attempt + 1 + 1 + 1 + 1
              updated_at := some now },
          [{ j with
              status := "in_progress"
              attempt := j.attempt + 1 + 1 + 1 + 1
              updated_at := some now }]) :=
      claimJob_singleton now _ rfl hwf3
    rw [h1, h2, h3, h4]
    refine ⟨_, rfl, ?_, ?_⟩
    · simp [h0]
    · simp [workerGate, isJobOverMaxAttempts, MAX_ATTEMPTS, h0]

/-- Witness for C5: a fresh queued job at `attempt = 0` reaches the
executor exactly 3 times over 5 worker cycles, and the 4th claim carries
`attempt = 4` and fails at the gate. -/
theorem worker_attempt_bound_witness :
    invocationsIn 0 [⟨1, "run-1", "plan", "queued", 0, 0, some 0, none⟩] 5 = 3
    ∧ ∃ c, (claimJob 0
          (cycleState 0 (cycleState 0 (cycleState 0
            [⟨1, "run-1", "plan", "queued", 0, 0, some 0, none⟩])))).1 = some c
        ∧ c.attempt = 4
        ∧ workerGate c = GateOutcome.failedMaxAttempts :=
  ⟨(worker_attempt_bound 0 ⟨1, "run-1", "plan", "queued", 0, 0, some 0, none⟩
      rfl (by decide) rfl).2.1 5,
    (worker_attempt_bound 0 ⟨1, "run-1", "plan", "queued", 0, 0, some 0, none⟩
      rfl (by decide) rfl).2.2⟩

/-! ## Worker phase handlers (`handleReview`, `handleTest`) -/

/-- Result shape of the external reviewer
(`ReviewerDecisionResult` in `reviewer.types.ts`). -/
structure ReviewerDecisionResult where
  task_id : String
  decision : String
  notes : List String
  required_actions : List String
  reasons : List String
  reason : String
  suggested_escalation : String
deriving Repr, DecidableEq

/-- Result shape of the external tester (`TesterResult` in
`tester.types.ts`). -/
structure TesterResult where
  task_id : String
  status : String
  tests_added : List String
  test_summary : String
  coverage_notes : List String
  reason : String
  logs : String
deriving Repr, DecidableEq

/-- Outcome of an external call as the worker observes it: a usable value
(`result.ok && result.value`), or a failure carrying the optional
`result.error` message (also used for a thrown build error). -/
inductive CallResult (α : Type) where
  | failure (error : Option String)
  | success (value : α)
deriving Repr, DecidableEq

/-- Function `resolveNextPhase` from the worker module. -/
def resolveNextPhase (agent : String) : String :=
  if agent = "planner" then "plan"
  else if agent = "implementer" then "implement"
  else if agent = "reviewer" then "review"
  else if agent = "tester" then "test"
  else if agent = "pr" then "pr"
  else ""

/-- Function `enqueueNext` from the worker module: skip when the agent is
missing or empty, the run id is empty, or the agent resolves to no phase;
otherwise enqueue one job for the resolved phase.  The model returns the
enqueued phase. -/
def enqueueNext (agent : Option String) (runId : String) : Option String :=
  match agent with
  | none => none
  | some a =>
    if a = "" ∨ runId = "" then none
    else if resolveNextPhase a = "" then none
    else some (resolveNextPhase a)

/-- Observable outcome of one worker phase handler: it throws (the worker
loop then marks the job failed), or it returns after writing a final
`handoff.json` document and enqueueing at most one next-phase job. -/
inductive HandlerResult where
  | threw (message : String)
  | returned (finalHandoff : RunHandoff) (enqueuedPhase : Option String)
deriving Repr, DecidableEq

/-- The `next` pointer `handleReview` builds on `decision === "approved"`. -/
def reviewNextOnApproved (planFile implementorFile : String) : HandoffNext :=
  ⟨"tester", [planFile, implementorFile, "review.json"],
    ["Add or update tests if required by the plan.",
      "Run the configured test command and report results."]⟩

/-- The `next` pointer `handleReview` builds on every other decision. -/
def reviewNextOtherwise (planFile implementorFile : String) : HandoffNext :=
  ⟨"implementer", [planFile, implementorFile, "review.json"],
    ["Address review feedback and update the implementation."]⟩

/-- Function `handleReview` from the worker module, as a function of the
handoff read from disk, the outcome of `buildHandoffFromPlan` (the plan
artifacts live in external files) and the outcome of the external
reviewer call.  File reads and artifact writes are I/O and are not part
of the returned value, which captures the final `handoff.json` document
and the enqueued job. -/
def handleReview (runHandoff : RunHandoff)
    (planBuild : CallResult Unit)
    (review : CallResult ReviewerDecisionResult)
    (endedAt : String) : HandlerResult :=
  if runHandoff.state.status = "cancelled" then
    .threw "Run cancelled."
  else
    let planFile := runHandoff.artifacts.plan.getD "plan.json"
    let implementorFile :=
      runHandoff.artifacts.implementation.getD "implementor.json"
    match planBuild with
    | .failure err =>
      .returned
        (markRunFailedDoc runHandoff "review" endedAt
          (err.getD "Invalid plan files.")) none
    | .success _ =>
      match review with
      | .failure err =>
        .returned
          (markRunFailedDoc runHandoff "review" endedAt
            (err.getD "Reviewer failed.")) none
      | .success r =>
        let nextAgent :=
          if r.decision = "approved" then
            reviewNextOnApproved planFile implementorFile
          else
            reviewNextOtherwise planFile implementorFile
        let updated := updateHandoff
          { handoff := runHandoff
            phase := "review"
            status := "completed"
            artifact := "review.json"
            endedAt := endedAt
            next := some nextAgent
            artifacts := { noArtifacts with review := some "review.json" }
            note := none }
        .returned updated
          (enqueueNext (updated.next.map HandoffNext.agent)
            runHandoff.run.id)

/-- The `next` pointer `handleTest` builds towards `pr` (used both when
tests pass and when they are skipped by policy). -/
def testNextOnPassed (planFile implementorFile : String) : HandoffNext :=
  ⟨"pr", [planFile, implementorFile, "review.json", "test.json"],
    ["Prepare a PR draft based on the approved implementation and tests."]⟩

/-- The `next` pointer `handleTest` builds when the tester status is not
`passed`. -/
def testNextOnFailed (planFile implementorFile : String) : HandoffNext :=
  ⟨"implementer", [planFile, implementorFile, "review.json", "test.json"],
    ["Fix implementation issues that caused test failures."]⟩

/-- Function `handleTest` from the worker module, under the same modelling
as `handleReview`.  `testsRequired` is
`runHandoff.constraints?.requireTestsForBehaviorChange ?? true`; the
external tester is consulted only when it is not `false`. -/
def handleTest (runHandoff : RunHandoff)
    (planBuild : CallResult Unit)
    (test : CallResult TesterResult)
    (endedAt : String) : HandlerResult :=
  if runHandoff.state.status = "cancelled" then
    .threw "Run cancelled."
  else
    let planFile := runHandoff.artifacts.plan.getD "plan.json"
    let implementorFile :=
      runHandoff.artifacts.implementation.getD "implementor.json"
    match planBuild with
    | .failure err =>
      .returned
        (markRunFailedDoc runHandoff "test" endedAt
          (err.getD "Invalid plan files.")) none
    | .success _ =>
      let testsRequired :=
        (runHandoff.constraints.bind
          HandoffConstraints.requireTestsForBehaviorChange).getD true
      if testsRequired = false then
        let updated := updateHandoff
          { handoff := runHandoff
            phase := "test"
            status := "completed"
            artifact := "test.json"
            endedAt := endedAt
            next := some (testNextOnPassed planFile implementorFile)
            artifacts := { noArtifacts with tests := some "test.json" }
            note := none }
        .returned updated
          (enqueueNext (updated.next.map HandoffNext.agent)
            runHandoff.run.id)
      else
        match test with
        | .failure err =>
          .returned
            (markRunFailedDoc runHandoff "test" endedAt
              (err.getD "Tester failed.")) none
        | .success tr =>
          let updated := updateHandoff
            { handoff := runHandoff
              phase := "test"
              status := "completed"
              artifact := "test.json"
              endedAt := endedAt
              next := some (if tr.status = "passed" then
                  testNextOnPassed planFile implementorFile
                else
                  testNextOnFailed planFile implementorFile)
              artifacts := { noArtifacts with tests := some "test.json" }
              note := none }
          .returned updated
            (enqueueNext (updated.next.map HandoffNext.agent)
              runHandoff.run.id)

/-! ## C1 -/

/-- A concrete reviewer result with decision "blocked". -/
def blockedReview : ReviewerDecisionResult :=
  ⟨"task-1", "blocked", [], [], [], "Needs human escalation.",
    "Escalate to maintainers."⟩

/-- A concrete reviewer result with decision "rejected". -/
def rejectedReview : ReviewerDecisionResult :=
  ⟨"task-1", "rejected", [], [], ["Missing tests."], "", ""⟩

/-- C1 counterexample: on the concrete handoff `sampleHandoff`, a reviewer
decision of "blocked" does not fail the run.  `handleReview` writes a
handoff whose status is "completed" with next agent "implementer" and
enqueues an implement job — the claim says the run is marked failed
immediately and nothing is enqueued. -/
theorem handleReview_blocked_counterexample :
    ∃ doc, handleReview sampleHandoff (CallResult.success ())
        (CallResult.success blockedReview) "2026-01-01T00:03:00.000Z"
        = HandlerResult.returned doc (some "implement")
      ∧ doc.state.status = "completed"
      ∧ doc.next = some (reviewNextOtherwise "plan.json" "implementor.json") :=
  ⟨_, rfl, rfl, rfl⟩

/-- C1 amended: for a review-phase job whose run is not cancelled and has
a non-empty run id, a decision of "approved" routes to the tester and
enqueues a test job; any other decision — "rejected" and "blocked" alike —
routes to the implementer and enqueues an implement job unconditionally
(no review retry budget is consulted); the run is marked failed exactly
when the plan artifacts cannot be rebuilt or the reviewer invocation
itself fails. -/
theorem handleReview_spec (h : RunHandoff) (r : ReviewerDecisionResult)
    (endedAt : String) (err : Option String)
    (hnc : h.state.status ≠ "cancelled") (hrid : h.run.id ≠ "") :
    (r.decision ≠ "approved" →
      handleReview h (CallResult.success ()) (CallResult.success r) endedAt
        = HandlerResult.returned
            (updateHandoff
              { handoff := h
                phase := "review"
                status := "completed"
                artifact := "review.json"
                endedAt := endedAt
                next := some (reviewNextOtherwise
                  (h.artifacts.plan.getD "plan.json")
                  (h.artifacts.implementation.getD "implementor.json"))
                artifacts := { noArtifacts with review := some "review.json" }
                note := none })
            (some "implement"))
    ∧ (r.decision = "approved" →
      handleReview h (CallResult.success ()) (CallResult.success r) endedAt
        = HandlerResult.returned
            (updateHandoff
              { handoff := h
                phase := "review"
                status := "completed"
                artifact := "review.json"
                endedAt := endedAt
                next := some (reviewNextOnApproved
                  (h.artifacts.plan.getD "plan.json")
                  (h.artifacts.implementation.getD "implementor.json"))
                artifacts := { noArtifacts with review := some "review.json" }
                note := none })
            (some "test"))
    ∧ (handleReview h (CallResult.failure err) (CallResult.success r) endedAt
        = HandlerResult.returned
            (markRunFailedDoc h "review" endedAt
              (err.getD "Invalid plan files.")) none)
    ∧ (handleReview h (CallResult.success ()) (CallResult.failure err) endedAt
        = HandlerResult.returned
            (markRunFailedDoc h "review" endedAt
              (err.getD "Reviewer failed.")) none) := by
  refine ⟨?_, ?_, ?_, ?_⟩
  · intro hdec
    simp only [handleReview, if_neg hnc, if_neg hdec]
    have hnext : (updateHandoff
        { handoff := h
          phase := "review"
          status := "completed"
          artifact := "review.json"
          endedAt := endedAt
          next := some (reviewNextOtherwise
            (h.artifacts.plan.getD "plan.json")
            (h.artifacts.implementation.getD "implementor.json"))
          artifacts := { noArtifacts with review := some "review.json" }
          note := none }).next
        = some (reviewNextOtherwise
            (h.artifacts.plan.getD "plan.json")
            (h.artifacts.implementation.getD "implementor.json")) := by
      simp [updateHandoff]
    rw [hnext]
    simp [enqueueNext, resolveNextPhase, reviewNextOtherwise, hrid]
  · intro hdec
    simp only [handleReview, if_neg hnc, if_pos hdec]
    have hnext : (updateHandoff
        { handoff := h
          phase := "review"
          status := "completed"
          artifact := "review.json"
          endedAt := endedAt
          next := some (reviewNextOnApproved
            (h.artifacts.plan.getD "plan.json")
            (h.artifacts.implementation.getD "implementor.json"))
          artifacts := { noArtifacts with review := some "review.json" }
          note := none }).next
        = some (reviewNextOnApproved
            (h.artifacts.plan.getD "plan.json")
            (h.artifacts.implementation.getD "implementor.json")) := by
      simp [updateHandoff]
    rw [hnext]
    simp [enqueueNext, resolveNextPhase, reviewNextOnApproved, hrid]
  · simp only [handleReview, if_neg hnc]
  · simp only [handleReview, if_neg hnc]

/-- Witness for C1 (amended) at a concrete handoff: a "rejected" decision
enqueues an implement job with next agent "implementer". -/
theorem handleReview_spec_witness :
    handleReview sampleHandoff (CallResult.success ())
        (CallResult.success rejectedReview) "2026-01-01T00:03:00.000Z"
      = HandlerResult.returned
          (updateHandoff
            { handoff := sampleHandoff
              phase := "review"
              status := "completed"
              artifact := "review.json"
              endedAt := "2026-01-01T00:03:00.000Z"
              next := some (reviewNextOtherwise
                (sampleHandoff.artifacts.plan.getD "plan.json")
                (sampleHandoff.artifacts.implementation.getD
                  "implementor.json"))
              artifacts := { noArtifacts with review := some "review.json" }
              note := none })
          (some "implement") :=
  (handleReview_spec sampleHandoff rejectedReview
      "2026-01-01T00:03:00.000Z" none (by decide) (by decide)).1 (by decide)

/-! ## C2 -/

/-- A concrete handoff on which tests are required
(`constraints.requireTestsForBehaviorChange = true`). -/
def testReqHandoff : RunHandoff :=
  { sampleHandoff with constraints := some ⟨none, none, some true⟩ }

/-- A concrete tester result with status "failed". -/
def failedTest : TesterResult :=
  ⟨"task-1", "failed", [], "2 of 14 tests failed.", [], "", "assertion"⟩

/-- C2 counterexample: on `testReqHandoff` (tests required), a tester
status of "failed" does not fail the run.  `handleTest` writes a handoff
whose status is "completed" with next agent "implementer" and enqueues an
implement job — the claim says the run is marked failed and nothing is
enqueued. -/
theorem handleTest_failed_counterexample :
    ∃ doc, handleTest testReqHandoff (CallResult.success ())
        (CallResult.success failedTest) "2026-01-01T00:04:00.000Z"
        = HandlerResult.returned doc (some "implement")
      ∧ doc.state.status = "completed"
      ∧ doc.next = some (testNextOnFailed "plan.json" "implementor.json") :=
  ⟨_, rfl, rfl, rfl⟩

/-- C2 amended: for a test-phase job whose run is not cancelled and has a
non-empty run id, with tests required
(`constraints.requireTestsForBehaviorChange ?? true` being true): a
failing tester invocation marks the run failed with nothing enqueued, a
tester result with status other than "passed" enqueues an implement job
(the run is not marked failed), and a "passed" status enqueues a pr job;
with tests not required, the tester is skipped and a pr job is enqueued
directly. -/
theorem handleTest_spec (h : RunHandoff) (tr : TesterResult)
    (endedAt : String) (err : Option String)
    (hnc : h.state.status ≠ "cancelled") (hrid : h.run.id ≠ "") :
    ((h.constraints.bind
        HandoffConstraints.requireTestsForBehaviorChange).getD true = true →
      (tr.status ≠ "passed" →
        handleTest h (CallResult.success ()) (CallResult.success tr) endedAt
          = HandlerResult.returned
              (updateHandoff
                { handoff := h
                  phase := "test"
                  status := "completed"
                  artifact := "test.json"
                  endedAt := endedAt
                  next := some (testNextOnFailed
                    (h.artifacts.plan.getD "plan.json")
                    (h.artifacts.implementation.getD "implementor.json"))
                  artifacts := { noArtifacts with tests := some "test.json" }
                  note := none })
              (some "implement"))
      ∧ (tr.status = "passed" →
        handleTest h (CallResult.success ()) (CallResult.success tr) endedAt
          = HandlerResult.returned
              (updateHandoff
                { handoff := h
                  phase := "test"
                  status := "completed"
                  artifact := "test.json"
                  endedAt := endedAt
                  next := some (testNextOnPassed
                    (h.artifacts.plan.getD "plan.json")
                    (h.artifacts.implementation.getD "implementor.json"))
                  artifacts := { noArtifacts with tests := some "test.json" }
                  note := none })
              (some "pr"))
      ∧ handleTest h (CallResult.success ()) (CallResult.failure err) endedAt
          = HandlerResult.returned
              (markRunFailedDoc h "test" endedAt
                (err.getD "Tester failed.")) none)
    ∧ ((h.constraints.bind
        HandoffConstraints.requireTestsForBehaviorChange).getD true = false →
      handleTest h (CallResult.success ()) (CallResult.success tr) endedAt
        = HandlerResult.returned
            (updateHandoff
              { handoff := h
                phase := "test"
                status := "completed"
                artifact := "test.json"
                endedAt := endedAt
                next := some (testNextOnPassed
                  (h.artifacts.plan.getD "plan.json")
                  (h.artifacts.implementation.getD "implementor.json"))
                artifacts := { noArtifacts with tests := some "test.json" }
                note := none })
            (some "pr"))
    ∧ (handleTest h (CallResult.failure err) (CallResult.success tr) endedAt
        = HandlerResult.returned
            (markRunFailedDoc h "test" endedAt
              (err.getD "Invalid plan files.")) none) := by
  refine ⟨fun hreq => ⟨?_, ?_, ?_⟩, ?_, ?_⟩
  · intro hst
    have hreq' : ¬ ((h.constraints.bind
        HandoffConstraints.requireTestsForBehaviorChange).getD true = false) := by
      rw [hreq]
      simp
    simp only [handleReview, handleTest, if_neg hnc, if_neg hreq',
      if_neg hst]
    have hnext : (updateHandoff
        { handoff := h
          phase := "test"
          status := "completed"
          artifact := "test.json"
          endedAt := endedAt
          next := some (testNextOnFailed
            (h.artifacts.plan.getD "plan.json")
            (h.artifacts.implementation.getD "implementor.json"))
          artifacts := { noArtifacts with tests := some "test.json" }
          note := none }).next
        = some (testNextOnFailed
            (h.artifacts.plan.getD "plan.json")
            (h.artifacts.implementation.getD "implementor.json")) := by
      simp [updateHandoff]
    rw [hnext]
    simp [enqueueNext, resolveNextPhase, testNextOnFailed, hrid]
  · intro hst
    have hreq' : ¬ ((h.constraints.bind
        HandoffConstraints.requireTestsForBehaviorChange).getD true = false) := by
      rw [hreq]
      simp
    simp only [handleTest, if_neg hnc, if_neg hreq', if_pos hst]
    have hnext : (updateHandoff
        { handoff := h
          phase := "test"
          status := "completed"
          artifact := "test.json"
          endedAt := endedAt
          next := some (testNextOnPassed
            (h.artifacts.plan.getD "plan.json")
            (h.artifacts.implementation.getD "implementor.json"))
          artifacts := { noArtifacts with tests := some "test.json" }
          note := none }).next
        = some (testNextOnPassed
            (h.artifacts.plan.getD "plan.json")
            (h.artifacts.implementation.getD "implementor.json")) := by
      simp [updateHandoff]
    rw [hnext]
    simp [enqueueNext, resolveNextPhase, testNextOnPassed, hrid]
  · have hreq' : ¬ ((h.constraints.bind
        HandoffConstraints.requireTestsForBehaviorChange).getD true = false) := by
      rw [hreq]
      simp
    simp only [handleTest, if_neg hnc, if_neg hreq']
  · intro hreq
    simp only [handleTest, if_neg hnc, if_pos hreq]
    have hnext : (updateHandoff
        { handoff := h
          phase := "test"
          status := "completed"
          artifact := "test.json"
          endedAt := endedAt
          next := some (testNextOnPassed
            (h.artifacts.plan.getD "plan.json")
            (h.artifacts.implementation.getD "implementor.json"))
          artifacts := { noArtifacts with tests := some "test.json" }
          note := none }).next
        = some (testNextOnPassed
            (h.artifacts.plan.getD "plan.json")
            (h.artifacts.implementation.getD "implementor.json")) := by
      simp [updateHandoff]
    rw [hnext]
    simp [enqueueNext, resolveNextPhase, testNextOnPassed, hrid]
  · simp only [handleTest, if_neg hnc]

/-- Witness for C2 (amended) at a concrete handoff: with tests required,
a passing tester result enqueues a pr job, and a failing tester
invocation marks the run failed. -/
theorem handleTest_spec_witness :
    handleTest testReqHandoff (CallResult.success ())
        (CallResult.success
          ⟨"task-1", "passed", [], "ok", [], "", ""⟩)
        "2026-01-01T00:04:00.000Z"
      = HandlerResult.returned
          (updateHandoff
            { handoff := testReqHandoff
              phase := "test"
              status := "completed"
              artifact := "test.json"
              endedAt := "2026-01-01T00:04:00.000Z"
              next := some (testNextOnPassed
                (testReqHandoff.artifacts.plan.getD "plan.json")
                (testReqHandoff.artifacts.implementation.getD
                  "implementor.json"))
              artifacts := { noArtifacts with tests := some "test.json" }
              note := none })
          (some "pr")
    ∧ handleTest testReqHandoff (CallResult.failure (some "spawn failed"))
        (CallResult.success failedTest) "2026-01-01T00:04:00.000Z"
      = HandlerResult.returned
          (markRunFailedDoc testReqHandoff "test" "2026-01-01T00:04:00.000Z"
            "spawn failed") none :=
  ⟨((handleTest_spec testReqHandoff
        ⟨"task-1", "passed", [], "ok", [], "", ""⟩
        "2026-01-01T00:04:00.000Z" none (by decide) (by decide)).1
      (by decide)).2.1 rfl,
    (handleTest_spec testReqHandoff failedTest "2026-01-01T00:04:00.000Z"
        (some "spawn failed") (by decide) (by decide)).2.2⟩

/-! ## JSON values and the handoff validator (`isRunHandoff`) -/

/-- Runtime JSON-ish values as the validator sees them.  An absent
property (`undefined`) is represented by a failed lookup (`none` at the
`Option JValue` level); numbers are modelled as integers (the validator
only inspects `typeof`). -/
inductive JValue where
  | null
  | bool (b : Bool)
  | num (n : Int)
  | str (s : String)
  | arr (elems : List JValue)
  | obj (fields : List (String × JValue))

/-- Property lookup on an object literal (first match; the documents the
engine writes carry no duplicate keys). -/
def getField : List (String × JValue) → String → Option JValue
  | [], _ => none
  | (k, v) :: rest, key => if k = key then some v else getField rest key

/-- Property access on a possibly-absent value; every access in the
validator is guarded by an `isRecord` check, so yielding `none` on
non-objects is faithful. -/
def jget (v : Option JValue) (key : String) : Option JValue :=
  match v with
  | some (JValue.obj fs) => getField fs key
  | _ => none

/-- JavaScript truthiness of a possibly-absent value: `undefined`,
`null`, `false`, `0` and `""` are falsy, everything else truthy. -/
def truthy : Option JValue → Bool
  | none => false
  | some JValue.null => false
  | some (JValue.bool b) => b
  | some (JValue.num n) => !(n == 0)
  | some (JValue.str s) => !(s == "")
  | some (JValue.arr _) => true
  | some (JValue.obj _) => true

/-- Predicate `isRecord` from the handoff module: a value of type object
that is neither `null` nor an array. -/
def isRecordJ : Option JValue → Bool
  | some (JValue.obj _) => true
  | _ => false

/-- Check `typeof x === "string"`. -/
def isStringJ : Option JValue → Bool
  | some (JValue.str _) => true
  | _ => false

/-- Check `typeof x === "number"`. -/
def isNumberJ : Option JValue → Bool
  | some (JValue.num _) => true
  | _ => false

/-- Predicate `isStringArray` from the handoff module. -/
def isStringArrayJ : Option JValue → Bool
  | some (JValue.arr xs) =>
    xs.all fun v =>
      match v with
      | JValue.str _ => true
      | _ => false
  | _ => false

/-- Predicate `isRunInfo` from the handoff module. -/
def isRunInfoJ (value : Option JValue) : Bool :=
  if !(isRecordJ value) then false
  else if !(isRecordJ (jget value "repo")) then false
  else
    isStringJ (jget value "id")
      && isStringJ (jget value "createdAt")
      && isStringJ (jget (jget value "repo") "root")
      && isStringJ (jget (jget value "repo") "branch")
      && isStringJ (jget (jget value "repo") "baseBranch")

/-- Predicate `isTaskInfo` from the handoff module. -/
def isTaskInfoJ (value : Option JValue) : Bool :=
  if !(isRecordJ value) then false
  else
    isStringJ (jget value "id")
      && isStringJ (jget value "prompt")
      && isStringJ (jget value "mode")

/-- Predicate `isHistoryItem` from the handoff module. -/
def isHistoryItemJ (value : Option JValue) : Bool :=
  if !(isRecordJ value) then false
  else
    isStringJ (jget value "phase")
      && isStringJ (jget value "status")
      && isStringJ (jget value "endedAt")
      && isStringJ (jget value "artifact")

/-- The combined check
`Array.isArray(state.history) && state.history.every(isHistoryItem)`. -/
def historyOkJ : Option JValue → Bool
  | some (JValue.arr xs) => xs.all fun v => isHistoryItemJ (some v)
  | _ => false

/-- Predicate `isRunHandoff` from the handoff module.  The `next` block is
entered only when `value.next` is truthy. -/
def isRunHandoffJ (value : Option JValue) : Bool :=
  if !(isRecordJ value) then false
  else if !(isRunInfoJ (jget value "run"))
      || !(isTaskInfoJ (jget value "task")) then false
  else if !(isRecordJ (jget value "state")) then false
  else if !(isStringJ (jget (jget value "state") "phase"))
      || !(isStringJ (jget (jget value "state") "status"))
      || !(isNumberJ (jget (jget value "state") "iteration"))
      || !(isNumberJ (jget (jget value "state") "maxIterations"))
      || !(historyOkJ (jget (jget value "state") "history")) then false
  else if !(isRecordJ (jget value "artifacts")) then false
  else if !(isStringArrayJ (jget value "notes")) then false
  else if truthy (jget value "next") then
    if !(isRecordJ (jget value "next")) then false
    else if !(isStringJ (jget (jget value "next") "agent"))
        || !(isStringArrayJ (jget (jget value "next") "inputArtifacts"))
        || !(isStringArrayJ (jget (jget value "next") "instructions")) then
      false
    else true
  else true

/-! ## C10 -/

/-- C10: `isRunHandoff` validates the contents of `next` only when `next`
is truthy, and `null` is falsy: every object whose `run`, `task`,
`state`, `artifacts` and `notes` fields validate and whose `next` key
holds `null` is accepted. -/
theorem isRunHandoff_accepts_null_next (fields : List (String × JValue))
    (hrun : isRunInfoJ (getField fields "run") = true)
    (htask : isTaskInfoJ (getField fields "task") = true)
    (hstate : isRecordJ (getField fields "state") = true)
    (hphase : isStringJ (jget (getField fields "state") "phase") = true)
    (hstatus : isStringJ (jget (getField fields "state") "status") = true)
    (hiter : isNumberJ (jget (getField fields "state") "iteration") = true)
    (hmax : isNumberJ (jget (getField fields "state") "maxIterations") = true)
    (hhist : historyOkJ (jget (getField fields "state") "history") = true)
    (hart : isRecordJ (getField fields "artifacts") = true)
    (hnotes : isStringArrayJ (getField fields "notes") = true)
    (hnext : getField fields "next" = some JValue.null) :
    isRunHandoffJ (some (JValue.obj fields)) = true := by
  have hjget : ∀ key, jget (some (JValue.obj fields)) key
      = getField fields key := fun _ => rfl
  simp only [isRunHandoffJ, hjget, hrun, htask, hphase, hstatus,
    hiter, hmax, hhist, hnotes, hnext, truthy,
    Bool.not_true, Bool.or_self, Bool.false_or, Bool.or_false,
    Bool.not_false, if_false, if_true]
  rw [hstate, hart]
  simp [isRecordJ]

/-- A concrete handoff document whose `next` key holds `null`. -/
def nullNextDoc : List (String × JValue) :=
  [("run", JValue.obj
      [("id", JValue.str "run-1"),
        ("createdAt", JValue.str "2026-01-01T00:00:00.000Z"),
        ("repo", JValue.obj
          [("root", JValue.str ""),
            ("branch", JValue.str ""),
            ("baseBranch", JValue.str "main")])]),
    ("task", JValue.obj
      [("id", JValue.str "task-1"),
        ("prompt", JValue.str "add a flag"),
        ("mode", JValue.str "auto")]),
    ("state", JValue.obj
      [("phase", JValue.str "plan"),
        ("status", JValue.str "queued"),
        ("iteration", JValue.num 1),
        ("maxIterations", JValue.num 3),
        ("history", JValue.arr [])]),
    ("artifacts", JValue.obj []),
    ("notes", JValue.arr []),
    ("next", JValue.null)]

/-- Witness for C10: the validator accepts `nullNextDoc`. -/
theorem isRunHandoff_accepts_null_next_witness :
    isRunHandoffJ (some (JValue.obj nullNextDoc)) = true :=
  isRunHandoff_accepts_null_next nullNextDoc rfl rfl rfl rfl rfl rfl rfl
    rfl rfl rfl rfl

end Concerto
